import Mathlib

/-!
# logger2: a process-wide levelled logger over zap and lumberjack

A shallow embedding of `logger2.go` (package `logger2`).

The Go file is a thin layer over four external packages that are not part of
the repository: `path/filepath`, `os`, `go.uber.org/zap` (with `zapcore`) and
`lumberjack`.  Their functions are embedded as follows.

* `path/filepath` (`Clean`, `Join`, `Base`, `Ext`): pure string functions,
  written out for the Unix flavour (separator `/`, no volume names) after the
  rules of the package documentation.
* `os` (`Stat`, `IsNotExist`, `MkdirAll`, `Executable`): operations of an
  operating-system interface `OS σ` over an arbitrary filesystem state `σ`.
* `zap`: the control flow of `Logger.check`, `Logger.Check`, the levelled
  methods and `CheckedEntry.Write`, over a process state holding the records
  handed to the sink and the termination status of the process.
* `lumberjack`: `Logger.Write` with its guard on the length of the write; the
  file operations behind it (opening the log file, rotating it, writing the
  bytes) are an operation of the runtime that may fail.  The sink is the list
  of the records that were written.

The mutex of the package serialises calls; every function below is one such
serialised call, as a state transformer.
-/

namespace logger2

/-! ## `path/filepath` (Unix) -/

/-- The path separator `os.PathSeparator`. -/
def Separator : Char := '/'

/-- Predicate `os.IsPathSeparator`. -/
def IsPathSeparator (c : Char) : Bool := c == Separator

/-- Loop of `filepath.Ext`, run over the reversed path: scan backwards from
the last byte until a separator is met; at the first dot return the suffix
that starts there. -/
def extLoop : List Char → List Char → List Char
  | [], _ => []
  | c :: rest, acc =>
    if IsPathSeparator c then []
    else if c = '.' then c :: acc
    else extLoop rest (c :: acc)

/-- Function `filepath.Ext`: the suffix beginning at the final dot in the
final element of the path; empty if there is no dot. -/
def Ext (path : String) : String := ⟨extLoop path.data.reverse []⟩

/-- Function `filepath.Base`: the last element of the path, trailing
separators removed first; `.` for the empty path and a single separator for
a path of separators only. -/
def Base (path : String) : String :=
  if path.data = [] then "."
  else
    let stripped := path.data.reverse.dropWhile IsPathSeparator
    let last := (stripped.takeWhile (fun c => !IsPathSeparator c)).reverse
    if last = [] then ⟨[Separator]⟩ else ⟨last⟩

/-- Split a path at every separator (as `strings.Split` does). -/
def splitSep : List Char → List (List Char)
  | [] => [[]]
  | c :: cs =>
    if IsPathSeparator c then [] :: splitSep cs
    else
      match splitSep cs with
      | [] => [[c]]
      | h :: t => (c :: h) :: t

/-- One element of the path in `filepath.Clean`; `out` is the list of the
elements kept so far, last one first.  Empty and `.` elements are dropped; a
`..` element removes the element before it, is kept at the start of a
relative path, and is dropped at the start of a rooted one. -/
def cleanStep (rooted : Bool) (out : List (List Char)) (e : List Char) :
    List (List Char) :=
  if e = [] ∨ e = ['.'] then out
  else if e = ['.', '.'] then
    match out with
    | [] => if rooted then [] else [e]
    | top :: rest => if top = ['.', '.'] then e :: out else rest
  else e :: out

/-- Function `filepath.Clean` on the characters of a path. -/
def cleanChars (path : List Char) : List Char :=
  match path with
  | [] => ['.']
  | c :: _ =>
    let rooted := IsPathSeparator c
    let out := (splitSep path).foldl (cleanStep rooted) []
    let body := [Separator].intercalate out.reverse
    if rooted then Separator :: body
    else if body = [] then ['.'] else body

/-- Function `filepath.Clean`: the shortest path name equivalent to `path` by
purely lexical processing. -/
def Clean (path : String) : String := ⟨cleanChars path.data⟩

/-- Function `filepath.Join`: the elements from the first non-empty one on,
joined with the separator, and the result cleaned; empty if all are empty. -/
def Join (elem : List String) : String :=
  match elem.dropWhile (fun e => e.data = []) with
  | [] => ""
  | es => Clean ⟨[Separator].intercalate (es.map String.data)⟩

/-- Function `filepath.Dir`: all but the last element of the path, cleaned. -/
def Dir (path : String) : String :=
  Clean ⟨(path.data.reverse.dropWhile (fun c => !IsPathSeparator c)).reverse⟩

/-! ## `os` -/

/-- Error numbers an `os` call may report. -/
inductive Errno where
  | ENOENT
  | ENOTDIR
  | EACCES
  | EEXIST
  | other (code : Nat)
  deriving DecidableEq, Repr

/-- Result type `os.FileInfo`, reduced to `IsDir`. -/
structure FileInfo where
  IsDir : Bool
  deriving DecidableEq, Repr

/-- Function `os.IsNotExist`: whether the error reports that a file or
directory does not exist.  False for no error and for every other error. -/
def IsNotExist : Option Errno → Bool
  | some Errno.ENOENT => true
  | _ => false

/-- The error half of a Go `(value, error)` result. -/
def errOf {ε α : Type} : Except ε α → Option ε
  | .error e => some e
  | .ok _ => none

/-- The operating-system calls used by the package, over a filesystem state
`σ`.  `MkdirAll` returns its error together with the filesystem it leaves;
`Executable` is the path of the executable that started the process, or the
error of resolving it. -/
structure OS (σ : Type) where
  Stat : σ → String → Except Errno FileInfo
  MkdirAll : σ → String → Nat → Option Errno × σ
  Executable : Except Errno String

/-- The path names an existing directory: `os.Stat` succeeds on it and
reports a directory. -/
def OS.isDirectory {σ : Type} (os : OS σ) (fs : σ) (path : String) : Bool :=
  match os.Stat fs path with
  | .ok info => info.IsDir
  | .error _ => false

/-! ## `zap`, `zapcore`, `lumberjack` -/

/-- Type `zapcore.Level` (an `int8` in Go; only compared, never computed
with). -/
abbrev Level := Int

def DebugLevel : Level := -1
def InfoLevel : Level := 0
def WarnLevel : Level := 1
def ErrorLevel : Level := 2
def DPanicLevel : Level := 3
def PanicLevel : Level := 4
def FatalLevel : Level := 5
def _minLevel : Level := DebugLevel
def _maxLevel : Level := FatalLevel
def InvalidLevel : Level := _maxLevel + 1

/-- Type `zap.Field`: a structured key/value pair. -/
structure Field where
  Key : String
  Value : String
  deriving DecidableEq, Repr

/-- Type `zapcore.Entry`, reduced to level and message. -/
structure Entry where
  Level : Level
  Message : String
  deriving DecidableEq, Repr

/-- Type `zapcore.CheckWriteAction`: what happens after a checked entry has
been written. -/
inductive CheckWriteAction where
  | WriteThenNoop
  | WriteThenGoexit
  | WriteThenPanic
  | WriteThenFatal
  deriving DecidableEq, Repr

/-- Time encoders of `zapcore`. -/
inductive TimeEncoder where
  | EpochTimeEncoder
  | ISO8601TimeEncoder
  deriving DecidableEq, Repr

/-- Type `zapcore.EncoderConfig`, reduced to the field the package sets. -/
structure EncoderConfig where
  EncodeTime : TimeEncoder
  deriving DecidableEq, Repr

/-- Function `zap.NewProductionEncoderConfig`. -/
def NewProductionEncoderConfig : EncoderConfig := ⟨TimeEncoder.EpochTimeEncoder⟩

/-- Encoders of `zapcore`. -/
inductive Encoder where
  | console (cfg : EncoderConfig)
  | json (cfg : EncoderConfig)
  deriving DecidableEq, Repr

/-- Type `lumberjack.Logger`: the settings of the rotated file sink. -/
structure LumberjackLogger where
  Filename : String
  MaxSize : Int
  MaxAge : Int
  MaxBackups : Int
  LocalTime : Bool
  Compress : Bool
  deriving DecidableEq, Repr

/-- The core built by `zapcore.NewCore`: encoder, sink and minimum level. -/
structure IoCore where
  enc : Encoder
  out : LumberjackLogger
  LevelEnabler : Level
  deriving DecidableEq, Repr

/-- Type `zap.Logger`. -/
structure ZapLogger where
  core : IoCore
  development : Bool
  addCaller : Bool
  callerSkip : Nat
  onFatal : CheckWriteAction
  deriving DecidableEq, Repr

/-- Type `zapcore.CheckedEntry`: an entry together with the cores that
agreed to write it and the action to take after the write. -/
structure CheckedEntry where
  Entry : Entry
  cores : List IoCore
  after : Option CheckWriteAction
  deriving DecidableEq, Repr

/-- One record handed to a sink: the file of the sink, the encoder, the
entry and its fields. -/
structure Record where
  Filename : String
  enc : Encoder
  entry : Entry
  fields : List Field
  deriving DecidableEq, Repr

/-- Whether the process is still executing application code. -/
inductive Status where
  | running
  | exited (code : Nat)
  | panicked
  | goexit
  deriving DecidableEq, Repr

/-- The errors of `lumberjack.Logger.Write`: the write is longer than the
maximum file size, or a file operation failed. -/
inductive WriteError where
  | exceedsMaximum (writeLen max : Int)
  | file (cause : Errno)
  deriving DecidableEq, Repr

/-- What the logging calls run on: the operating system, the encoder of zap
(`Encoder.EncodeEntry`, the bytes of a record), and the file operations of
lumberjack for one write of that many bytes (`openExistingOrNew`, `rotate`
and the write to the file), which return their error and the filesystem they
leave. -/
structure Runtime (σ : Type) where
  os : OS σ
  EncodeEntry : Encoder → Entry → List Field → String
  FileWrite : σ → LumberjackLogger → Nat → Option Errno × σ

/-- The observable state of the process for the logging calls: the
filesystem, the records written to the sinks, oldest first, the write errors
that zap reported on its error output, and the termination status. -/
structure Process (σ : Type) where
  fs : σ
  sink : List Record
  stderr : List WriteError
  status : Status
  deriving DecidableEq, Repr

/-- Sequencing of application code: the next call runs only while the
process is still running. -/
def Process.andThen {σ : Type} (p : Process σ) (call : Process σ → Process σ) : Process σ :=
  if p.status = Status.running then call p else p

/-- Conversion to `int64` (two's complement wrap-around). -/
def wrapInt64 (x : Int) : Int := (x + 2 ^ 63) % 2 ^ 64 - 2 ^ 63

/-- Constant `megabyte` of lumberjack. -/
def megabyte : Int := 1024 * 1024

/-- Constant `defaultMaxSize` of lumberjack, in megabytes. -/
def defaultMaxSize : Int := 100

/-- Method `max` of lumberjack: the maximum size of the log file in bytes;
the default if `MaxSize` is zero. -/
def LumberjackLogger.max (l : LumberjackLogger) : Int :=
  if l.MaxSize = 0 then defaultMaxSize * megabyte
  else wrapInt64 (l.MaxSize * megabyte)

/-- Method `Write` of lumberjack: a write longer than the maximum file size
is refused; otherwise the file is opened (rotated if needed) and written,
which may fail.  Returns the error and the filesystem left. -/
def LumberjackLogger.Write {σ : Type} (rt : Runtime σ) (l : LumberjackLogger) (buf : String)
    (fs : σ) : Option WriteError × σ :=
  let writeLen : Int := buf.utf8ByteSize
  if writeLen > l.max then (some (WriteError.exceedsMaximum writeLen l.max), fs)
  else
    match rt.FileWrite fs l buf.utf8ByteSize with
    | (some err, fs1) => (some (WriteError.file err), fs1)
    | (none, fs1) => (none, fs1)

/-- Function `zap.New` with no options. -/
def zapNew (core : IoCore) : ZapLogger :=
  { core := core, development := false, addCaller := false, callerSkip := 0,
    onFatal := CheckWriteAction.WriteThenNoop }

/-- Option `zap.AddCallerSkip` applied through `Logger.WithOptions`. -/
def ZapLogger.WithCallerSkip (log : ZapLogger) (skip : Nat) : ZapLogger :=
  { log with callerSkip := log.callerSkip + skip }

/-- Method `Enabled` of the core: the level is at least the minimum. -/
def IoCore.Enabled (c : IoCore) (lvl : Level) : Bool := decide (c.LevelEnabler ≤ lvl)

/-- Method `CheckedEntry.AddCore`, on a possibly nil receiver. -/
def AddCore (ce : Option CheckedEntry) (ent : Entry) (core : IoCore) : CheckedEntry :=
  match ce with
  | none => { Entry := ent, cores := [core], after := none }
  | some c => { c with cores := c.cores ++ [core] }

/-- Method `CheckedEntry.After`, on a possibly nil receiver. -/
def After (ce : Option CheckedEntry) (ent : Entry) (hook : CheckWriteAction) : CheckedEntry :=
  match ce with
  | none => { Entry := ent, cores := [], after := some hook }
  | some c => { c with after := some hook }

/-- Method `Check` of the core: add the core if the level is enabled. -/
def IoCore.Check (c : IoCore) (ent : Entry) (ce : Option CheckedEntry) : Option CheckedEntry :=
  if c.Enabled ent.Level then some (AddCore ce ent c) else ce

/-- Method `Logger.check` of zap: decide whether a message at this level is
written and which terminal action follows the write.  Nothing is written
here. -/
def ZapLogger.check (log : ZapLogger) (lvl : Level) (msg : String) : Option CheckedEntry :=
  if lvl < DPanicLevel ∧ log.core.Enabled lvl = false then none
  else
    let ent : Entry := { Level := lvl, Message := msg }
    let ce := log.core.Check ent none
    if lvl = PanicLevel then some (After ce ent CheckWriteAction.WriteThenPanic)
    else if lvl = FatalLevel then
      let onFatal :=
        if log.onFatal = CheckWriteAction.WriteThenNoop then CheckWriteAction.WriteThenFatal
        else log.onFatal
      some (After ce ent onFatal)
    else if lvl = DPanicLevel then
      if log.development then some (After ce ent CheckWriteAction.WriteThenPanic) else ce
    else ce

/-- Method `Write` of the core: encode the entry and write the bytes to the
sink.  The record is in the sink only if that write returned no error; an
error is returned to the caller. -/
def IoCore.Write {σ : Type} (rt : Runtime σ) (c : IoCore) (ent : Entry) (fields : List Field)
    (p : Process σ) : Option WriteError × Process σ :=
  match c.out.Write rt (rt.EncodeEntry c.enc ent fields) p.fs with
  | (some err, fs) => (some err, { p with fs := fs })
  | (none, fs) =>
    (none, { p with fs := fs,
                    sink := p.sink ++ [{ Filename := c.out.Filename, enc := c.enc,
                                         entry := ent, fields := fields }] })

/-- Method `CheckedEntry.Write`: write the entry to every core, report the
errors of the cores on the error output, then take the terminal action. -/
def CheckedEntry.Write {σ : Type} (rt : Runtime σ) (ce : CheckedEntry) (fields : List Field)
    (p : Process σ) : Process σ :=
  let written := ce.cores.foldl
    (fun q c =>
      match c.Write rt ce.Entry fields q with
      | (some err, q1) => { q1 with stderr := q1.stderr ++ [err] }
      | (none, q1) => q1) p
  match ce.after with
  | some CheckWriteAction.WriteThenFatal => { written with status := Status.exited 1 }
  | some CheckWriteAction.WriteThenPanic => { written with status := Status.panicked }
  | some CheckWriteAction.WriteThenGoexit => { written with status := Status.goexit }
  | _ => written

/-- Method `Logger.Check` of zap: returns the checked entry to the caller,
who writes it by calling `Write` on it.  The process state is left as it
was. -/
def ZapLogger.Check {σ : Type} (log : ZapLogger) (lvl : Level) (msg : String)
    (p : Process σ) : Option CheckedEntry × Process σ :=
  (log.check lvl msg, p)

/-- The levelled methods of zap (`Logger.Debug`, `Info`, `Warn`, `Error`,
`Fatal`): check at the fixed level and write the entry if it is non-nil. -/
def ZapLogger.logAt {σ : Type} (rt : Runtime σ) (log : ZapLogger) (lvl : Level)
    (msg : String) (fields : List Field) (p : Process σ) : Process σ :=
  match log.check lvl msg with
  | some ce => ce.Write rt fields p
  | none => p

/-! ## Package `logger2` -/

/-- Type `Config`. -/
structure Config where
  LogDir : String
  ServiceName : String
  MaxFileSize : Int
  MaxAge : Int
  MaxBackups : Int
  LocalTime : Bool
  Compress : Bool
  Filename : String
  deriving DecidableEq, Repr

/-- Type `Logger2`. -/
structure Logger2 where
  zapLogger : ZapLogger
  LogDir : String
  ServiceName : String
  Filename : String
  deriving DecidableEq, Repr

/-- The errors `NewLogger` builds with `fmt.Errorf`. -/
inductive LoggerError where
  | createLogDir (dir : String) (cause : Errno)
  | executablePath (cause : Errno)
  deriving DecidableEq, Repr

/-- The state a construction call works on: the filesystem and the package
variable `_global`. -/
structure Package (σ : Type) where
  fs : σ
  _global : Option Logger2

/-- All that a call of `NewLogger` leaves: the returned pair, the package
state and the configuration behind the pointer argument. -/
structure NewLoggerResult (σ : Type) where
  logger : Option Logger2
  err : Option LoggerError
  state : Package σ
  cfg : Config

/-- Function `Logger`: the current value of `_global`. -/
def Logger {σ : Type} (st : Package σ) : Option Logger2 := st._global

/-- Lines 80 to 84 of `NewLogger`: if `os.Stat` reports that the directory
does not exist, create it with `os.MkdirAll` and mode 0755.  Returns the
error of `MkdirAll` (none if it was not called) and the filesystem left. -/
def ensureLogDir {σ : Type} (os : OS σ) (fs : σ) (dir : String) : Option Errno × σ :=
  if IsNotExist (errOf (os.Stat fs dir)) then os.MkdirAll fs dir 0o755
  else (none, fs)

/-- Lines 92 to 97 of `NewLogger`: the base name of the executable path with
its extension cut off. -/
def executableName (path : String) : String :=
  let executable := Base path
  let ext := Ext executable
  if ext ≠ "" then ⟨executable.data.take (executable.data.length - ext.data.length)⟩
  else executable

/-- The words of the specification, for comparison with `executableName`:
the base name of the executable with its extension removed, the extension
being what starts at the final dot; a base name without a dot is unchanged. -/
def baseNameWithoutExtension (path : String) : String :=
  let base := Base path
  if '.' ∈ base.data then
    ⟨((base.data.reverse.dropWhile (fun c => c != '.')).drop 1).reverse⟩
  else base

/-- Lines 86 to 100 of `NewLogger`: the service name of the configuration, or
the one derived from the executable path if it is empty. -/
def resolveServiceName {σ : Type} (os : OS σ) (cfg : Config) : Except Errno String :=
  if cfg.ServiceName = "" then
    match os.Executable with
    | .error err => .error err
    | .ok path => .ok (executableName path)
  else .ok cfg.ServiceName

/-- Lines 104 to 118 of `NewLogger`: the console encoder with ISO-8601 time,
the lumberjack sink of the configuration, and the minimum level Info. -/
def newCore (cfg : Config) : IoCore :=
  let encoderCfg := { NewProductionEncoderConfig with
                      EncodeTime := TimeEncoder.ISO8601TimeEncoder }
  { enc := Encoder.console encoderCfg,
    out := { Filename := cfg.Filename, MaxSize := cfg.MaxFileSize, MaxAge := cfg.MaxAge,
             MaxBackups := cfg.MaxBackups, LocalTime := cfg.LocalTime,
             Compress := cfg.Compress },
    LevelEnabler := InfoLevel }

/-- Function `NewLogger`.  The argument `cfg` is the configuration behind the
(non-nil) pointer; the configuration after the call is part of the result. -/
def NewLogger {σ : Type} (os : OS σ) (st : Package σ) (cfg : Config) : NewLoggerResult σ :=
  match ensureLogDir os st.fs cfg.LogDir with
  | (some err, fs) =>
    { logger := none, err := some (LoggerError.createLogDir cfg.LogDir err),
      state := { st with fs := fs }, cfg := cfg }
  | (none, fs) =>
    match resolveServiceName os cfg with
    | .error err =>
      { logger := none, err := some (LoggerError.executablePath err),
        state := { st with fs := fs }, cfg := cfg }
    | .ok serviceName =>
      let cfg := { cfg with ServiceName := serviceName }
      let cfg := { cfg with Filename := Join [cfg.LogDir, cfg.ServiceName ++ ".log"] }
      let l : Logger2 :=
        { zapLogger := zapNew (newCore cfg), LogDir := cfg.LogDir,
          ServiceName := cfg.ServiceName, Filename := cfg.Filename }
      { logger := some l, err := none, state := { fs := fs, _global := some l }, cfg := cfg }

/-- The configuration a successful `NewLogger` leaves behind the pointer:
the service name and the file name written into it (lines 99 and 102). -/
def Config.completed (cfg : Config) (serviceName : String) : Config :=
  { cfg with ServiceName := serviceName,
             Filename := Join [cfg.LogDir, serviceName ++ ".log"] }

/-- The instance a successful `NewLogger` installs (lines 104 to 125), from
the completed configuration. -/
def Config.newInstance (cfg : Config) : Logger2 :=
  { zapLogger := zapNew (newCore cfg), LogDir := cfg.LogDir,
    ServiceName := cfg.ServiceName, Filename := cfg.Filename }

/-- Function `NewLoggerDefault`. -/
def NewLoggerDefault {σ : Type} (os : OS σ) (st : Package σ) (dir : String) :
    NewLoggerResult σ :=
  NewLogger os st
    { LogDir := Clean dir, ServiceName := "", MaxFileSize := 10, MaxAge := 28,
      MaxBackups := 7, LocalTime := true, Compress := true, Filename := "" }

/-- Method `Logger2.Log`: format the message and call `Check` of zap; the
checked entry that `Check` returns is dropped.  `Sprintf` is `fmt.Sprintf`. -/
def Logger2.Log {σ α : Type} (Sprintf : String → List α → String) (l : Logger2)
    (level : Level) (format : String) (fields : List α) (p : Process σ) : Process σ :=
  ((l.zapLogger.WithCallerSkip 1).Check level (Sprintf format fields) p).2

/-- Method `Logger2.Error`. -/
def Logger2.Error {σ : Type} (rt : Runtime σ) (l : Logger2) (message : String)
    (fields : List Field) (p : Process σ) : Process σ :=
  (l.zapLogger.WithCallerSkip 1).logAt rt ErrorLevel message fields p

/-- Method `Logger2.Info`. -/
def Logger2.Info {σ : Type} (rt : Runtime σ) (l : Logger2) (message : String)
    (fields : List Field) (p : Process σ) : Process σ :=
  (l.zapLogger.WithCallerSkip 1).logAt rt InfoLevel message fields p

/-- Method `Logger2.Debug`. -/
def Logger2.Debug {σ : Type} (rt : Runtime σ) (l : Logger2) (message : String)
    (fields : List Field) (p : Process σ) : Process σ :=
  (l.zapLogger.WithCallerSkip 1).logAt rt DebugLevel message fields p

/-- Method `Logger2.Warn`. -/
def Logger2.Warn {σ : Type} (rt : Runtime σ) (l : Logger2) (message : String)
    (fields : List Field) (p : Process σ) : Process σ :=
  (l.zapLogger.WithCallerSkip 1).logAt rt WarnLevel message fields p

/-- Method `Logger2.Fatal`. -/
def Logger2.Fatal {σ : Type} (rt : Runtime σ) (l : Logger2) (message : String)
    (fields : List Field) (p : Process σ) : Process σ :=
  (l.zapLogger.WithCallerSkip 1).logAt rt FatalLevel message fields p

/-- The record an instance hands to its sink for a message at a level. -/
def Logger2.record (l : Logger2) (lvl : Level) (message : String) (fields : List Field) :
    Record :=
  { Filename := l.zapLogger.core.out.Filename, enc := l.zapLogger.core.enc,
    entry := { Level := lvl, Message := message }, fields := fields }

/-- Whether the sink of the instance accepts, in this filesystem, the write
of the record for a message at a level: `Write` of lumberjack returns no
error on the encoded record. -/
def Logger2.sinkAccepts {σ : Type} (rt : Runtime σ) (l : Logger2) (lvl : Level)
    (message : String) (fields : List Field) (fs : σ) : Bool :=
  (l.zapLogger.core.out.Write rt
    (rt.EncodeEntry l.zapLogger.core.enc { Level := lvl, Message := message } fields) fs).1.isNone

/-- The filesystem that the write of the record for a message leaves. -/
def Logger2.sinkLeaves {σ : Type} (rt : Runtime σ) (l : Logger2) (lvl : Level)
    (message : String) (fields : List Field) (fs : σ) : σ :=
  (l.zapLogger.core.out.Write rt
    (rt.EncodeEntry l.zapLogger.core.enc { Level := lvl, Message := message } fields) fs).2

/-- The errors that the write of the record for a message reports. -/
def Logger2.sinkErrors {σ : Type} (rt : Runtime σ) (l : Logger2) (lvl : Level)
    (message : String) (fields : List Field) (fs : σ) : List WriteError :=
  (l.zapLogger.core.out.Write rt
    (rt.EncodeEntry l.zapLogger.core.enc { Level := lvl, Message := message } fields)
    fs).1.toList

/-! ## A small in-memory operating system, to run the definitions -/

/-- An in-memory filesystem: the paths that exist (with whether each is a
directory) and whether new directories may be created. -/
structure MemFS where
  entries : List (String × Bool)
  writable : Bool
  deriving DecidableEq, Repr

/-- Look a path up in the in-memory filesystem. -/
def MemFS.find (fs : MemFS) (path : String) : Option Bool :=
  (fs.entries.find? (fun e => e.1 = path)).map (fun e => e.2)

/-- The operating system over `MemFS`, for a process whose executable path
is `exe` (unresolved if none). -/
def memOS (exe : Option String) : OS MemFS where
  Stat fs path :=
    match fs.find path with
    | some isDir => .ok ⟨isDir⟩
    | none => .error Errno.ENOENT
  MkdirAll fs path _ :=
    match fs.find path with
    | some true => (none, fs)
    | some false => (some Errno.ENOTDIR, fs)
    | none =>
      if fs.writable then (none, { fs with entries := (path, true) :: fs.entries })
      else (some Errno.EACCES, fs)
  Executable :=
    match exe with
    | some path => .ok path
    | none => .error Errno.ENOENT

/-- A writable filesystem without entries. -/
def emptyFS : MemFS := { entries := [], writable := true }

/-- The operating system of a process started from `/usr/bin/myservice.exe`. -/
def serviceOS : OS MemFS := memOS (some "/usr/bin/myservice.exe")

/-- The operating system of a process whose executable path cannot be
resolved. -/
def noExecutableOS : OS MemFS := memOS none

/-- A stand-in for the encoder: the message and a line end. -/
def plainEncode (_ : Encoder) (ent : Entry) (_ : List Field) : String := ent.Message ++ "\n"

/-- The runtime over `MemFS`: a write to the log file succeeds if the
directory of the file is a directory or can be created, and fails if it is a
regular file or cannot be created. -/
def memRuntime (exe : Option String) : Runtime MemFS where
  os := memOS exe
  EncodeEntry := plainEncode
  FileWrite fs l _ :=
    match fs.find (Dir l.Filename) with
    | some true => (none, fs)
    | some false => (some Errno.ENOTDIR, fs)
    | none =>
      if fs.writable then (none, { fs with entries := (Dir l.Filename, true) :: fs.entries })
      else (some Errno.EACCES, fs)

/-- The runtime of a process started from `/usr/bin/myservice.exe`. -/
def serviceRuntime : Runtime MemFS := memRuntime (some "/usr/bin/myservice.exe")

/-- A stand-in for `fmt.Sprintf` on string arguments: the format followed by
the arguments. -/
def concatSprintf (format : String) (args : List String) : String :=
  args.foldl (fun s a => s ++ a) format

/-- A filesystem without entries in which no directory can be created. -/
def readOnlyFS : MemFS := { entries := [], writable := false }

/-- A filesystem in which the directory `testlogs` exists. -/
def testlogsFS : MemFS := { entries := [("testlogs", true)], writable := true }

/-- A process that has logged nothing yet, in a filesystem. -/
def Process.fresh {σ : Type} (fs : σ) : Process σ :=
  { fs := fs, sink := [], stderr := [], status := Status.running }

/-- A process that has logged nothing yet, with the directory `testlogs`. -/
def freshProcess : Process MemFS := Process.fresh testlogsFS

/-- A filesystem in which the directory exists under the name `logs/`. -/
def trailingSlashFS : MemFS :=
  { entries := [("logs/", true)], writable := true }

/-- A filesystem in which `logfile` is a regular file. -/
def regularFileFS : MemFS :=
  { entries := [("logfile", false)], writable := true }

/-- A configuration with the defaults of `NewLoggerDefault` for a directory
and a service name given as they are. -/
def configFor (dir serviceName : String) : Config :=
  { LogDir := dir, ServiceName := serviceName, MaxFileSize := 10, MaxAge := 28,
    MaxBackups := 7, LocalTime := true, Compress := true, Filename := "" }

/-- The instance that `NewLoggerDefault` builds for `testlogs` in a process
started from `/usr/bin/myservice.exe`. -/
def testlogsLogger : Logger2 := ((configFor "testlogs" "").completed "myservice").newInstance

/-- The configuration of `testlogs` with a negative maximum file size. -/
def negativeSizeConfig : Config := { configFor "testlogs" "" with MaxFileSize := -1 }

/-- The instance that `NewLogger` builds for `negativeSizeConfig`. -/
def negativeSizeLogger : Logger2 := (negativeSizeConfig.completed "myservice").newInstance

/-- The instance that `NewLogger` builds when `LogDir` is the regular file
`logfile` and the service name is `svc`. -/
def regularFileLogger : Logger2 := ((configFor "logfile" "svc").completed "svc").newInstance

/-! ## Construction: the three outcomes of `NewLogger` -/

theorem ensureLogDir_fst {σ : Type} (os : OS σ) (fs : σ) (dir : String) :
    (ensureLogDir os fs dir).1 =
      if IsNotExist (errOf (os.Stat fs dir)) then (os.MkdirAll fs dir 0o755).1 else none := by
  unfold ensureLogDir
  split <;> rfl

theorem ensureLogDir_snd {σ : Type} (os : OS σ) (fs : σ) (dir : String) :
    (ensureLogDir os fs dir).2 =
      if IsNotExist (errOf (os.Stat fs dir)) then (os.MkdirAll fs dir 0o755).2 else fs := by
  unfold ensureLogDir
  split <;> rfl

theorem isDirectory_not_IsNotExist {σ : Type} (os : OS σ) (fs : σ) (dir : String)
    (h : os.isDirectory fs dir = true) : IsNotExist (errOf (os.Stat fs dir)) = false := by
  unfold OS.isDirectory at h
  rcases hs : os.Stat fs dir with e | info
  · rw [hs] at h; cases h
  · rfl

theorem resolveServiceName_error_iff {σ : Type} (os : OS σ) (cfg : Config) :
    (∃ e, resolveServiceName os cfg = .error e) ↔
      (cfg.ServiceName = "" ∧ errOf os.Executable ≠ none) := by
  unfold resolveServiceName
  by_cases hs : cfg.ServiceName = ""
  · rw [if_pos hs]
    rcases hx : os.Executable with e | path
    · simp [hs, errOf]
    · simp [hs, errOf]
  · rw [if_neg hs]
    simp [hs]

theorem NewLogger_cases {σ : Type} (os : OS σ) (st : Package σ) (cfg : Config) :
    (∃ e, (ensureLogDir os st.fs cfg.LogDir).1 = some e ∧
        (NewLogger os st cfg).logger = none ∧
        (NewLogger os st cfg).err = some (LoggerError.createLogDir cfg.LogDir e) ∧
        (NewLogger os st cfg).state._global = st._global ∧
        (NewLogger os st cfg).cfg = cfg) ∨
    (∃ e, (ensureLogDir os st.fs cfg.LogDir).1 = none ∧
        resolveServiceName os cfg = .error e ∧
        (NewLogger os st cfg).logger = none ∧
        (NewLogger os st cfg).err = some (LoggerError.executablePath e) ∧
        (NewLogger os st cfg).state._global = st._global ∧
        (NewLogger os st cfg).cfg = cfg) ∨
    (∃ name, (ensureLogDir os st.fs cfg.LogDir).1 = none ∧
        resolveServiceName os cfg = .ok name ∧
        (NewLogger os st cfg).logger = some (cfg.completed name).newInstance ∧
        (NewLogger os st cfg).err = none ∧
        (NewLogger os st cfg).state._global = some (cfg.completed name).newInstance ∧
        (NewLogger os st cfg).cfg = cfg.completed name) := by
  unfold NewLogger
  rcases hmk : ensureLogDir os st.fs cfg.LogDir with ⟨_ | e, fs⟩
  · rcases hn : resolveServiceName os cfg with e | name
    · right; left
      exact ⟨e, rfl, by simp [hn], by simp [hn], by simp [hn], by simp [hn], by simp [hn]⟩
    · right; right
      refine ⟨name, rfl, by simp [hn], ?_, ?_, ?_, ?_⟩ <;>
        simp [hn, Config.completed, Config.newInstance]
  · left; exact ⟨e, rfl, rfl, rfl, rfl, rfl⟩

theorem NewLogger_state_fs {σ : Type} (os : OS σ) (st : Package σ) (cfg : Config) :
    (NewLogger os st cfg).state.fs = (ensureLogDir os st.fs cfg.LogDir).2 := by
  unfold NewLogger
  rcases hmk : ensureLogDir os st.fs cfg.LogDir with ⟨_ | e, fs⟩
  · rcases hn : resolveServiceName os cfg with e | name <;> simp [hn]
  · rfl

theorem NewLogger_some {σ : Type} (os : OS σ) (st : Package σ) (cfg : Config) (l : Logger2)
    (h : (NewLogger os st cfg).logger = some l) :
    ∃ name, (ensureLogDir os st.fs cfg.LogDir).1 = none ∧
      resolveServiceName os cfg = .ok name ∧
      l = (cfg.completed name).newInstance ∧
      (NewLogger os st cfg).err = none ∧
      (NewLogger os st cfg).state._global = some l ∧
      (NewLogger os st cfg).cfg = cfg.completed name := by
  rcases NewLogger_cases os st cfg with
    ⟨e, _, hl, _⟩ | ⟨e, _, _, hl, _⟩ | ⟨name, h1, h2, hl, h3, h4, h5⟩
  · rw [hl] at h; cases h
  · rw [hl] at h; cases h
  · rw [hl] at h
    have hl2 : l = (cfg.completed name).newInstance := (Option.some.inj h).symm
    exact ⟨name, h1, h2, hl2, h3, by rw [h4, hl2], h5⟩

/-! ## The checks and writes of zap on a constructed instance -/

theorem sinkAccepts_iff {σ : Type} (rt : Runtime σ) (l : Logger2) (lvl : Level)
    (message : String) (fields : List Field) (fs : σ) :
    l.sinkAccepts rt lvl message fields fs = true ↔
      (((rt.EncodeEntry l.zapLogger.core.enc { Level := lvl, Message := message }
          fields).utf8ByteSize : Int) ≤ l.zapLogger.core.out.max ∧
        (rt.FileWrite fs l.zapLogger.core.out
          (rt.EncodeEntry l.zapLogger.core.enc { Level := lvl, Message := message }
            fields).utf8ByteSize).1 = none) := by
  unfold Logger2.sinkAccepts LumberjackLogger.Write
  simp only
  split
  · rename_i hgt
    simp only [Option.isNone_some, Bool.false_eq_true, false_iff, not_and]
    intro hle
    exact absurd hle (not_le.2 hgt)
  · rename_i hgt
    rcases hw : rt.FileWrite fs l.zapLogger.core.out
      (rt.EncodeEntry l.zapLogger.core.enc { Level := lvl, Message := message }
        fields).utf8ByteSize with ⟨_ | e, fs1⟩
    · simp [not_lt.1 hgt]
    · simp

theorem write_constructed {σ : Type} (rt : Runtime σ) (cfg : Config) (lvl : Level)
    (message : String) (fields : List Field) (p : Process σ)
    (after : Option CheckWriteAction) :
    CheckedEntry.Write rt
        { Entry := { Level := lvl, Message := message }, cores := [newCore cfg],
          after := after } fields p =
      (match after with
        | some CheckWriteAction.WriteThenFatal => fun (q : Process σ) =>
          { q with status := Status.exited 1 }
        | some CheckWriteAction.WriteThenPanic => fun q => { q with status := Status.panicked }
        | some CheckWriteAction.WriteThenGoexit => fun q => { q with status := Status.goexit }
        | _ => fun q => q)
        { fs := cfg.newInstance.sinkLeaves rt lvl message fields p.fs,
          sink := if cfg.newInstance.sinkAccepts rt lvl message fields p.fs
            then p.sink ++ [cfg.newInstance.record lvl message fields] else p.sink,
          stderr := p.stderr ++ cfg.newInstance.sinkErrors rt lvl message fields p.fs,
          status := p.status } := by
  have hw : (List.foldl
      (fun (q : Process σ) c =>
        match IoCore.Write rt c { Level := lvl, Message := message } fields q with
        | (some err, q1) => { q1 with stderr := q1.stderr ++ [err] }
        | (none, q1) => q1) p [newCore cfg]) =
      { fs := cfg.newInstance.sinkLeaves rt lvl message fields p.fs,
        sink := if cfg.newInstance.sinkAccepts rt lvl message fields p.fs
          then p.sink ++ [cfg.newInstance.record lvl message fields] else p.sink,
        stderr := p.stderr ++ cfg.newInstance.sinkErrors rt lvl message fields p.fs,
        status := p.status } := by
    simp only [List.foldl_cons, List.foldl_nil, IoCore.Write, Logger2.sinkLeaves,
      Logger2.sinkAccepts, Logger2.sinkErrors, Logger2.record, Config.newInstance, zapNew]
    rcases (newCore cfg).out.Write rt
      (rt.EncodeEntry (newCore cfg).enc { Level := lvl, Message := message } fields) p.fs
      with ⟨_ | e, fs1⟩
    · simp
    · simp
  unfold CheckedEntry.Write
  simp only [hw]
  rcases after with _ | a
  · rfl
  · cases a <;> rfl

theorem logAt_constructed {σ : Type} (rt : Runtime σ) (cfg : Config) (lvl : Level)
    (message : String) (fields : List Field) (p : Process σ)
    (h0 : InfoLevel ≤ lvl) (h1 : lvl < DPanicLevel) :
    (zapNew (newCore cfg)|>.WithCallerSkip 1).logAt rt lvl message fields p =
      { fs := cfg.newInstance.sinkLeaves rt lvl message fields p.fs,
        sink := if cfg.newInstance.sinkAccepts rt lvl message fields p.fs
          then p.sink ++ [cfg.newInstance.record lvl message fields] else p.sink,
        stderr := p.stderr ++ cfg.newInstance.sinkErrors rt lvl message fields p.fs,
        status := p.status } := by
  have e1 : decide (InfoLevel ≤ lvl) = true := by simpa using h0
  have n1 : lvl ≠ PanicLevel := by intro h; rw [h] at h1; exact absurd h1 (by decide)
  have n2 : lvl ≠ FatalLevel := by intro h; rw [h] at h1; exact absurd h1 (by decide)
  have n3 : lvl ≠ DPanicLevel := by intro h; rw [h] at h1; exact absurd h1 (by decide)
  have hc : (zapNew (newCore cfg)|>.WithCallerSkip 1).check lvl message =
      some { Entry := { Level := lvl, Message := message }, cores := [newCore cfg],
             after := none } := by
    simp [ZapLogger.check, ZapLogger.WithCallerSkip, zapNew, newCore, IoCore.Enabled,
      IoCore.Check, e1, n1, n2, n3, AddCore]
  unfold ZapLogger.logAt
  rw [hc]
  exact write_constructed rt cfg lvl message fields p none

theorem check_constructed (cfg : Config) (lvl : Level) (msg : String) (h0 : InfoLevel ≤ lvl) :
    ∃ ce, (zapNew (newCore cfg)|>.WithCallerSkip 1).check lvl msg = some ce ∧
      ce.Entry = { Level := lvl, Message := msg } ∧ ce.cores = [newCore cfg] ∧
      (ce.after = some CheckWriteAction.WriteThenFatal ↔ lvl = FatalLevel) := by
  have e1 : decide (InfoLevel ≤ lvl) = true := by simpa using h0
  by_cases n1 : lvl = PanicLevel
  · subst n1
    simp [ZapLogger.check, ZapLogger.WithCallerSkip, zapNew, newCore, IoCore.Enabled,
      IoCore.Check, AddCore, After, PanicLevel, DPanicLevel, FatalLevel, InfoLevel]
  by_cases n2 : lvl = FatalLevel
  · subst n2
    simp [ZapLogger.check, ZapLogger.WithCallerSkip, zapNew, newCore, IoCore.Enabled,
      IoCore.Check, AddCore, After, PanicLevel, DPanicLevel, FatalLevel, InfoLevel]
  by_cases n3 : lvl = DPanicLevel
  · subst n3
    simp [ZapLogger.check, ZapLogger.WithCallerSkip, zapNew, newCore, IoCore.Enabled,
      IoCore.Check, AddCore, After, PanicLevel, DPanicLevel, FatalLevel, InfoLevel]
  · simp [ZapLogger.check, ZapLogger.WithCallerSkip, zapNew, newCore, IoCore.Enabled,
      IoCore.Check, AddCore, e1, n1, n2, n3]

/-! ## `filepath.Ext` and `filepath.Base` -/

theorem extLoop_eq (rev acc : List Char) (h : ∀ c ∈ rev, IsPathSeparator c = false) :
    extLoop rev acc =
      match rev.dropWhile (fun c => c != '.') with
      | [] => []
      | d :: _ => d :: ((rev.takeWhile (fun c => c != '.')).reverse ++ acc) := by
  induction rev generalizing acc with
  | nil => rfl
  | cons c rest ih =>
    have hc : IsPathSeparator c = false := h c (List.mem_cons_self _ _)
    have hrest : ∀ x ∈ rest, IsPathSeparator x = false :=
      fun x hx => h x (List.mem_cons_of_mem _ hx)
    by_cases hdot : c = '.'
    · subst hdot
      simp [extLoop, hc]
    · simp only [extLoop, hc, hdot, Bool.false_eq_true, if_false]
      rw [ih _ hrest]
      have hne : (c != '.') = true := by simpa using hdot
      simp only [List.dropWhile_cons, List.takeWhile_cons, hne, if_true]
      rcases rest.dropWhile (fun c => c != '.') with _ | ⟨d, t⟩
      · rfl
      · simp

theorem Base_data (path : String) :
    (Base path).data = ['.'] ∨ (Base path).data = ['/'] ∨
      ((Base path).data ≠ [] ∧ ∀ c ∈ (Base path).data, IsPathSeparator c = false) := by
  unfold Base
  by_cases h0 : path.data = []
  · left; rw [if_pos h0]
  · rw [if_neg h0]
    simp only
    split
    · right; left; rfl
    · rename_i hl
      right; right
      refine ⟨hl, ?_⟩
      intro c hc
      have := List.mem_takeWhile_imp (List.mem_reverse.1 hc)
      simpa using this

theorem executableName_eq_spec (path : String) :
    executableName path = baseNameWithoutExtension path ∧
      executableName path ++ Ext (Base path) = Base path := by
  unfold executableName baseNameWithoutExtension
  simp only
  rcases Base_data path with hb | hb | ⟨hne, hb⟩
  · have hB : Base path = "." := String.ext hb
    rw [hB]
    decide
  · have hB : Base path = "/" := String.ext hb
    rw [hB]
    decide
  · generalize Base path = base at hne hb
    obtain ⟨b⟩ := base
    simp only at hne hb
    have hrev : ∀ c ∈ b.reverse, IsPathSeparator c = false :=
      fun c hc => hb c (List.mem_reverse.1 hc)
    have hsplit := List.takeWhile_append_dropWhile (fun c => c != '.') b.reverse
    have hext := extLoop_eq b.reverse [] hrev
    simp only [Ext]
    rw [hext]
    generalize List.takeWhile (fun c => c != '.') b.reverse = tw at hsplit
    rcases hdw : b.reverse.dropWhile (fun c => c != '.') with _ | ⟨d, t⟩
    · have hnodot : '.' ∉ b := by
        intro hmem
        have := (List.dropWhile_eq_nil_iff.1 hdw) '.' (List.mem_reverse.2 hmem)
        simp at this
      simp only [hnodot, if_false]
      refine ⟨by simp, ?_⟩
      apply String.ext
      simp
    · rw [hdw] at hsplit
      have hd : d = '.' := by
        have := List.head_dropWhile_not (fun c => c != '.') b.reverse
          (by rw [hdw]; simp)
        simp [hdw] at this
        exact this
      have hb2 : b = t.reverse ++ d :: tw.reverse := by
        have := congrArg List.reverse hsplit
        simp at this
        rw [← this]
      have hdot : '.' ∈ b := by
        rw [hb2, hd]; simp
      have hextne : (⟨d :: (tw.reverse ++ [])⟩ : String) ≠ "" := by
        intro h
        have := congrArg String.data h
        simp at this
      simp only [if_pos hextne, if_pos hdot]
      simp only [List.append_nil, List.drop_one, List.tail_cons]
      have htake : List.take (b.length - (d :: tw.reverse).length) b = t.reverse := by
        rw [hb2]
        simp
      rw [htake]
      refine ⟨rfl, ?_⟩
      apply String.ext
      simp [hb2]

/-! ## `filepath.Clean` and `filepath.Join` -/

theorem splitSep_ne_nil (a : List Char) : splitSep a ≠ [] := by
  cases a with
  | nil => simp [splitSep]
  | cons x a =>
    unfold splitSep
    split
    · simp
    · split <;> simp

theorem splitSep_append (a b : List Char) :
    splitSep (a ++ Separator :: b) = splitSep a ++ splitSep b := by
  induction a with
  | nil => simp [splitSep, IsPathSeparator]
  | cons x a ih =>
    by_cases hx : IsPathSeparator x = true
    · simp [splitSep, hx, ih]
    · simp only [List.cons_append, splitSep, hx, Bool.false_eq_true, if_false, ih]
      rcases hs : splitSep a with _ | ⟨h, t⟩
      · exact absurd hs (splitSep_ne_nil a)
      · show (match splitSep (a ++ Separator :: b) with
            | [] => [[x]]
            | h :: t => (x :: h) :: t) = _
        rw [ih, hs]
        rfl

theorem splitSep_element (f : List Char) (hf : ∀ c ∈ f, IsPathSeparator c = false) :
    splitSep f = [f] := by
  induction f with
  | nil => rfl
  | cons x f ih =>
    have hx : IsPathSeparator x = false := hf x (List.mem_cons_self _ _)
    have ih2 := ih (fun c hc => hf c (List.mem_cons_of_mem _ hc))
    simp [splitSep, hx, ih2]

theorem intercalate_append_singleton (sep : List Char) (xs : List (List Char)) (f : List Char)
    (hxs : xs ≠ []) :
    sep.intercalate (xs ++ [f]) = sep.intercalate xs ++ (sep ++ f) := by
  induction xs with
  | nil => exact absurd rfl hxs
  | cons x xs ih =>
    cases xs with
    | nil => simp [List.intercalate, List.intersperse]
    | cons y ys =>
      have := ih (by simp)
      simp only [List.intercalate, List.cons_append, List.intersperse_cons_cons,
        List.flatten_cons, List.append_assoc] at this ⊢
      rw [this]

theorem cleanChars_append_element (d f : List Char) (hclean : cleanChars d = d)
    (hdot : d ≠ ['.']) (hroot : d ≠ [Separator])
    (hf : ∀ c ∈ f, IsPathSeparator c = false)
    (hf0 : f ≠ []) (hf1 : f ≠ ['.']) (hf2 : f ≠ ['.', '.']) :
    cleanChars (d ++ Separator :: f) = d ++ Separator :: f := by
  cases d with
  | nil => simp [cleanChars] at hclean
  | cons c d =>
    have hstep : ∀ out, cleanStep (IsPathSeparator c) out f = f :: out := by
      intro out
      simp [cleanStep, hf0, hf1, hf2]
    simp only [cleanChars, List.cons_append] at hclean ⊢
    rw [show c :: (d ++ Separator :: f) = (c :: d) ++ Separator :: f from rfl,
      splitSep_append, splitSep_element f hf, List.foldl_append]
    simp only [List.foldl_cons, List.foldl_nil, hstep, List.reverse_cons]
    generalize List.foldl (cleanStep (IsPathSeparator c)) [] (splitSep (c :: d)) = out
      at hclean ⊢
    have hout : out.reverse ≠ [] := by
      intro h0
      rw [h0] at hclean
      by_cases hr : IsPathSeparator c = true
      · simp [hr, List.intercalate] at hclean
        exact hroot (by rw [← hclean.1, ← hclean.2])
      · simp [hr, List.intercalate] at hclean
        exact hdot (by rw [← hclean.1, ← hclean.2])
    rw [intercalate_append_singleton _ _ _ hout]
    by_cases hr : IsPathSeparator c = true
    · simp only [hr, if_true] at hclean ⊢
      rw [← List.cons_append, hclean]
      simp
    · simp only [hr, Bool.false_eq_true, if_false] at hclean ⊢
      have hb : [Separator].intercalate out.reverse ≠ [] := by
        intro h0
        rw [h0] at hclean
        simp at hclean
        exact hdot (by rw [← hclean.1, ← hclean.2])
      rw [if_neg hb] at hclean
      rw [hclean]
      simp

theorem Join_pair (d f : String) (hf : f ≠ "") :
    Join [d, f] = if d = "" then Clean f else Clean (d ++ "/" ++ f) := by
  obtain ⟨d⟩ := d
  obtain ⟨f⟩ := f
  have hf2 : f ≠ [] := fun h => hf (by rw [h])
  cases d with
  | nil =>
    have : (⟨[]⟩ : String) = "" := rfl
    simp only [Join, List.dropWhile, this, if_true, decide_True, hf2, decide_False]
    simp [List.intercalate]
  | cons c d =>
    have hne : (⟨c :: d⟩ : String) ≠ "" := by
      intro h
      have := congrArg String.data h
      simp at this
    simp only [Join, List.dropWhile, hne, if_false]
    simp only [List.cons_ne_nil, decide_False, List.map, List.intercalate,
      List.intersperse, List.flatten, List.append_nil]
    congr 1
    apply String.ext
    simp [Separator]

/-! ## The levelled methods and `Log` -/

/-- Claim C1, evaluated on the code: on every instance constructed by
`NewLogger` and for every level from Info up, `Log` leaves the process as it
was, so it appends no record.  The checked entry that zap returns is there
and carries the formatted message, and writing it would append exactly one
record whenever the sink accepts the write; `Log` drops it without calling
`Write`. -/
theorem Log_drops_checked_entry {σ α : Type} (rt : Runtime σ) (st : Package σ) (cfg : Config)
    (l : Logger2) (h : (NewLogger rt.os st cfg).logger = some l)
    (Sprintf : String → List α → String) (level : Level) (hlevel : InfoLevel ≤ level)
    (format : String) (fields : List α) (p : Process σ) :
    l.Log Sprintf level format fields p = p ∧
    ∃ ce, (l.zapLogger.WithCallerSkip 1).Check level (Sprintf format fields) p = (some ce, p) ∧
      ce.Entry.Message = Sprintf format fields ∧
      (ce.Write rt [] p).sink =
        (if l.sinkAccepts rt level (Sprintf format fields) [] p.fs
          then p.sink ++ [l.record level (Sprintf format fields) []] else p.sink) := by
  obtain ⟨name, -, -, hl, -⟩ := NewLogger_some rt.os st cfg l h
  subst hl
  refine ⟨rfl, ?_⟩
  obtain ⟨ce, hce, hent, hcores, -⟩ :=
    check_constructed (cfg.completed name) level (Sprintf format fields) hlevel
  refine ⟨ce, ?_, by rw [hent], ?_⟩
  · simp only [ZapLogger.Check, Config.newInstance]
    rw [hce]
  · obtain ⟨ent, cores, after⟩ := ce
    simp only at hent hcores
    subst hent hcores
    rw [write_constructed]
    rcases after with _ | a
    · rfl
    · cases a <;> rfl

/-- Witness for claim C1: `Log` at Info level on the instance built for
`testlogs` appends nothing, while `Info` with the same message appends one
record. -/
theorem Log_drops_checked_entry_witness :
    (NewLogger serviceRuntime.os ⟨emptyFS, none⟩ (configFor "testlogs" "")).logger =
        some testlogsLogger ∧
      InfoLevel ≤ InfoLevel ∧
      testlogsLogger.Log concatSprintf InfoLevel "Testing log at level: Info" []
        freshProcess = freshProcess ∧
      (testlogsLogger.Info serviceRuntime "Testing log at level: Info" []
        freshProcess).sink.length = 1 :=
  ⟨by decide, by decide,
    (Log_drops_checked_entry serviceRuntime ⟨emptyFS, none⟩ (configFor "testlogs" "")
      testlogsLogger (by decide) concatSprintf InfoLevel (by decide)
      "Testing log at level: Info" [] freshProcess).1,
    by decide⟩

/-- Claim C2 as stated fails: `NewLogger` constructs an instance for a
configuration with maximum file size -1, and on it `Info` appends no record:
lumberjack refuses every write as longer than the maximum file size, and the
error goes to the error output of zap. -/
theorem Info_appends_nothing_when_sink_refuses :
    (NewLogger serviceRuntime.os ⟨emptyFS, none⟩ negativeSizeConfig).logger =
        some negativeSizeLogger ∧
      (NewLogger serviceRuntime.os ⟨emptyFS, none⟩ negativeSizeConfig).err = none ∧
      (negativeSizeLogger.Info serviceRuntime "hello" [] freshProcess).sink = [] ∧
      (negativeSizeLogger.Info serviceRuntime "hello" [] freshProcess).stderr =
        [WriteError.exceedsMaximum 6 (-1048576)] := by
  decide

/-- Claim C2, amended: on every instance constructed by `NewLogger`, `Debug`
appends no record and leaves the process as it was, and each of `Info`,
`Warn` and `Error` makes one write of one record to the sink and returns
with the process still in the same status: exactly that record is appended
when the sink accepts the write, and none when it refuses it.  The sink
accepts the write exactly when the encoded record is not longer than the
maximum file size and the file operations of the write succeed. -/
theorem dedicated_methods_admission {σ : Type} (rt : Runtime σ) (st : Package σ)
    (cfg : Config) (l : Logger2) (h : (NewLogger rt.os st cfg).logger = some l)
    (message : String) (fields : List Field) (p : Process σ) :
    l.Debug rt message fields p = p ∧
    ((l.Info rt message fields p).sink =
        (if l.sinkAccepts rt InfoLevel message fields p.fs
          then p.sink ++ [l.record InfoLevel message fields] else p.sink) ∧
      (l.Info rt message fields p).status = p.status) ∧
    ((l.Warn rt message fields p).sink =
        (if l.sinkAccepts rt WarnLevel message fields p.fs
          then p.sink ++ [l.record WarnLevel message fields] else p.sink) ∧
      (l.Warn rt message fields p).status = p.status) ∧
    ((l.Error rt message fields p).sink =
        (if l.sinkAccepts rt ErrorLevel message fields p.fs
          then p.sink ++ [l.record ErrorLevel message fields] else p.sink) ∧
      (l.Error rt message fields p).status = p.status) ∧
    (∀ lvl, l.sinkAccepts rt lvl message fields p.fs = true ↔
      (((rt.EncodeEntry l.zapLogger.core.enc { Level := lvl, Message := message }
          fields).utf8ByteSize : Int) ≤ l.zapLogger.core.out.max ∧
        (rt.FileWrite p.fs l.zapLogger.core.out
          (rt.EncodeEntry l.zapLogger.core.enc { Level := lvl, Message := message }
            fields).utf8ByteSize).1 = none)) ∧
    (l.record InfoLevel message fields).Filename = l.Filename ∧
    (l.record InfoLevel message fields).entry.Message = message := by
  obtain ⟨name, -, -, hl, -⟩ := NewLogger_some rt.os st cfg l h
  subst hl
  have hI := logAt_constructed rt (cfg.completed name) InfoLevel message fields p
    (by decide) (by decide)
  have hW := logAt_constructed rt (cfg.completed name) WarnLevel message fields p
    (by decide) (by decide)
  have hE := logAt_constructed rt (cfg.completed name) ErrorLevel message fields p
    (by decide) (by decide)
  refine ⟨?_, ⟨?_, ?_⟩, ⟨?_, ?_⟩, ⟨?_, ?_⟩, fun lvl => sinkAccepts_iff rt _ lvl _ _ _,
    rfl, rfl⟩
  · simp [Logger2.Debug, ZapLogger.logAt, ZapLogger.check, ZapLogger.WithCallerSkip,
      Config.newInstance, zapNew, newCore, IoCore.Enabled, DebugLevel, InfoLevel, DPanicLevel]
  · exact congrArg Process.sink hI
  · have hs := congrArg Process.status hI
    exact hs
  · exact congrArg Process.sink hW
  · have hs := congrArg Process.status hW
    exact hs
  · exact congrArg Process.sink hE
  · have hs := congrArg Process.status hE
    exact hs

/-- Witness for claim C2: on the instance built for `testlogs` the sink
accepts the record of `hello`; `Debug` leaves a fresh process as it is and
`Info` appends one record. -/
theorem dedicated_methods_admission_witness :
    (NewLogger serviceRuntime.os ⟨emptyFS, none⟩ (configFor "testlogs" "")).logger =
        some testlogsLogger ∧
      testlogsLogger.sinkAccepts serviceRuntime InfoLevel "hello" [] freshProcess.fs = true ∧
      testlogsLogger.Debug serviceRuntime "hello" [] freshProcess = freshProcess ∧
      (testlogsLogger.Info serviceRuntime "hello" [] freshProcess).sink =
        [testlogsLogger.record InfoLevel "hello" []] := by
  have h := dedicated_methods_admission serviceRuntime ⟨emptyFS, none⟩
    (configFor "testlogs" "") testlogsLogger (by decide) "hello" [] freshProcess
  have ha : testlogsLogger.sinkAccepts serviceRuntime InfoLevel "hello" []
      freshProcess.fs = true := by decide
  refine ⟨by decide, ha, h.1, ?_⟩
  rw [h.2.1.1, if_pos ha]
  rfl

/-- Claim C3, evaluated on the code: on every instance constructed by
`NewLogger`, `Fatal` makes one write of the record to the sink (appended
when the sink accepts it) and then the process has exited with status 1, so
no later call runs; `Log` at Fatal level leaves the process as it was, so a
running process keeps running and the next call runs. -/
theorem Fatal_exits_but_Log_at_FatalLevel_returns {σ α : Type} (rt : Runtime σ)
    (st : Package σ) (cfg : Config) (l : Logger2)
    (h : (NewLogger rt.os st cfg).logger = some l)
    (Sprintf : String → List α → String) (message format : String) (fields : List Field)
    (args : List α) (p : Process σ) (hp : p.status = Status.running) :
    (l.Fatal rt message fields p).sink =
      (if l.sinkAccepts rt FatalLevel message fields p.fs
        then p.sink ++ [l.record FatalLevel message fields] else p.sink) ∧
    (l.Fatal rt message fields p).status = Status.exited 1 ∧
    (∀ call, (l.Fatal rt message fields p).andThen call = l.Fatal rt message fields p) ∧
    l.Log Sprintf FatalLevel format args p = p ∧
    (∀ call, (l.Log Sprintf FatalLevel format args p).andThen call = call p) := by
  obtain ⟨name, -, -, hl, -⟩ := NewLogger_some rt.os st cfg l h
  subst hl
  have hc : (zapNew (newCore (cfg.completed name))|>.WithCallerSkip 1).check FatalLevel
      message = some { Entry := { Level := FatalLevel, Message := message },
                       cores := [newCore (cfg.completed name)],
                       after := some CheckWriteAction.WriteThenFatal } := by
    simp [ZapLogger.check, ZapLogger.WithCallerSkip, zapNew, newCore, IoCore.Enabled,
      IoCore.Check, AddCore, After, PanicLevel, DPanicLevel, FatalLevel, InfoLevel]
  have hf : (cfg.completed name).newInstance.Fatal rt message fields p =
      { fs := (cfg.completed name).newInstance.sinkLeaves rt FatalLevel message fields p.fs,
        sink := if (cfg.completed name).newInstance.sinkAccepts rt FatalLevel message fields
            p.fs
          then p.sink ++ [(cfg.completed name).newInstance.record FatalLevel message fields]
          else p.sink,
        stderr := p.stderr ++
          (cfg.completed name).newInstance.sinkErrors rt FatalLevel message fields p.fs,
        status := Status.exited 1 } := by
    show ZapLogger.logAt rt (zapNew (newCore (cfg.completed name))|>.WithCallerSkip 1)
      FatalLevel message fields p = _
    unfold ZapLogger.logAt
    rw [hc]
    exact write_constructed rt (cfg.completed name) FatalLevel message fields p _
  have hst : ((cfg.completed name).newInstance.Fatal rt message fields p).status =
      Status.exited 1 := by
    have hs := congrArg Process.status hf
    exact hs
  refine ⟨congrArg Process.sink hf, hst, ?_, rfl, ?_⟩
  · intro call
    simp [Process.andThen, hst]
  · intro call
    show p.andThen call = call p
    simp [Process.andThen, hp]

/-- Witness for claim C3: on the instance built for `testlogs`, in a process
that has logged nothing yet, `Fatal` writes its record and exits with status
1, and `Log` at Fatal level returns with the process unchanged. -/
theorem Fatal_exits_but_Log_at_FatalLevel_returns_witness :
    (NewLogger serviceRuntime.os ⟨emptyFS, none⟩ (configFor "testlogs" "")).logger =
        some testlogsLogger ∧
      freshProcess.status = Status.running ∧
      (testlogsLogger.Fatal serviceRuntime "boom" [] freshProcess).sink.length = 1 ∧
      (testlogsLogger.Fatal serviceRuntime "boom" [] freshProcess).status =
        Status.exited 1 ∧
      testlogsLogger.Log concatSprintf FatalLevel "Testing log at level: Fatal" []
        freshProcess = freshProcess := by
  have h := Fatal_exits_but_Log_at_FatalLevel_returns serviceRuntime ⟨emptyFS, none⟩
    (configFor "testlogs" "") testlogsLogger (by decide) concatSprintf "boom"
    "Testing log at level: Fatal" [] [] freshProcess rfl
  exact ⟨by decide, rfl, by decide, h.2.1, h.2.2.2.1⟩

/-! ## `NewLoggerDefault` and `Logger` -/

/-- Claim C4 as stated fails: the directory `testlogs` exists, yet
`NewLoggerDefault` returns no instance and an error, and `Logger` stays
absent, because the path of the executable cannot be resolved. -/
theorem NewLoggerDefault_fails_without_executable :
    noExecutableOS.isDirectory testlogsFS (Clean "testlogs") = true ∧
      (NewLoggerDefault noExecutableOS ⟨testlogsFS, none⟩ "testlogs").logger = none ∧
      (NewLoggerDefault noExecutableOS ⟨testlogsFS, none⟩ "testlogs").err =
        some (LoggerError.executablePath Errno.ENOENT) ∧
      Logger (NewLoggerDefault noExecutableOS ⟨testlogsFS, none⟩ "testlogs").state = none := by
  decide

/-- Claim C4, amended: for every directory path whose cleaned form exists as
a directory or can be created, and whenever the path of the executable can
be resolved, `NewLoggerDefault` returns an instance and no error, `Logger`
then returns that instance, and its `LogDir` is the cleaned path. -/
theorem NewLoggerDefault_succeeds {σ : Type} (os : OS σ) (st : Package σ) (dir : String)
    (hdir : os.isDirectory st.fs (Clean dir) = true ∨
      (os.MkdirAll st.fs (Clean dir) 0o755).1 = none)
    (hexe : errOf os.Executable = none) :
    ∃ l, (NewLoggerDefault os st dir).logger = some l ∧
      (NewLoggerDefault os st dir).err = none ∧
      Logger (NewLoggerDefault os st dir).state = some l ∧
      l.LogDir = Clean dir := by
  show ∃ l, (NewLogger os st (configFor (Clean dir) "")).logger = some l ∧
      (NewLogger os st (configFor (Clean dir) "")).err = none ∧
      Logger (NewLogger os st (configFor (Clean dir) "")).state = some l ∧
      l.LogDir = Clean dir
  have hmk : (ensureLogDir os st.fs (configFor (Clean dir) "").LogDir).1 = none := by
    rw [ensureLogDir_fst]
    split
    · rename_i hne
      rcases hdir with hd | hd
      · have hx := isDirectory_not_IsNotExist os _ _ hd
        rw [show (configFor (Clean dir) "").LogDir = Clean dir from rfl, hx] at hne
        cases hne
      · exact hd
    · rfl
  rcases NewLogger_cases os st (configFor (Clean dir) "") with
    ⟨e, h1, _⟩ | ⟨e, _, h2, _⟩ | ⟨name, _, _, hl, herr, hg, _⟩
  · rw [hmk] at h1; cases h1
  · exact absurd hexe ((resolveServiceName_error_iff os _).1 ⟨e, h2⟩).2
  · exact ⟨_, hl, herr, hg, rfl⟩

/-- Witness for claim C4: `NewLoggerDefault` for `testlogs//` in an empty
writable filesystem. -/
theorem NewLoggerDefault_succeeds_witness :
    (serviceOS.MkdirAll emptyFS (Clean "testlogs//") 0o755).1 = none ∧
      errOf serviceOS.Executable = none ∧
      ∃ l, (NewLoggerDefault serviceOS ⟨emptyFS, none⟩ "testlogs//").logger = some l ∧
        (NewLoggerDefault serviceOS ⟨emptyFS, none⟩ "testlogs//").err = none ∧
        Logger (NewLoggerDefault serviceOS ⟨emptyFS, none⟩ "testlogs//").state = some l ∧
        l.LogDir = Clean "testlogs//" :=
  ⟨by decide, by decide, NewLoggerDefault_succeeds serviceOS ⟨emptyFS, none⟩ "testlogs//"
    (Or.inr (by decide)) (by decide)⟩

/-! ## File name, service name and directory of the instance -/

/-- Claim C5 as stated fails: with the existing directory `logs/` and the
service name `svc`, the file name of the instance is `logs/svc.log`, while
its `LogDir`, a separator, its service name and `.log` give
`logs//svc.log`. -/
theorem Filename_is_cleaned :
    (NewLogger serviceOS ⟨trailingSlashFS, none⟩ (configFor "logs/" "svc")).logger =
        some ((configFor "logs/" "svc").completed "svc").newInstance ∧
      ((configFor "logs/" "svc").completed "svc").newInstance.Filename = "logs/svc.log" ∧
      ((configFor "logs/" "svc").completed "svc").newInstance.LogDir ++ "/" ++
        ((configFor "logs/" "svc").completed "svc").newInstance.ServiceName ++ ".log" =
          "logs//svc.log" ∧
      ((configFor "logs/" "svc").completed "svc").newInstance.Filename ≠
        ((configFor "logs/" "svc").completed "svc").newInstance.LogDir ++ "/" ++
          ((configFor "logs/" "svc").completed "svc").newInstance.ServiceName ++ ".log" := by
  decide

/-- Claim C5, amended: on every configuration on which `NewLogger` succeeds
the file name of the instance is `filepath.Join` of its `LogDir` and its
service name followed by `.log`, that is the cleaned form of `LogDir`, a
separator, the service name and `.log` (of the last two alone for an empty
`LogDir`).  It is exactly `LogDir`, one separator, the service name and
`.log` whenever `LogDir` is a cleaned path other than `.` and the root and
the service name holds no separator. -/
theorem Filename_is_Join {σ : Type} (os : OS σ) (st : Package σ) (cfg : Config)
    (l : Logger2) (h : (NewLogger os st cfg).logger = some l) :
    l.Filename = Join [l.LogDir, l.ServiceName ++ ".log"] ∧
    (l.LogDir ≠ "" → l.Filename = Clean (l.LogDir ++ "/" ++ (l.ServiceName ++ ".log"))) ∧
    (l.LogDir = "" → l.Filename = Clean (l.ServiceName ++ ".log")) ∧
    (Clean l.LogDir = l.LogDir → l.LogDir ≠ "." → l.LogDir ≠ "/" →
      (∀ c ∈ l.ServiceName.data, IsPathSeparator c = false) →
      l.Filename = l.LogDir ++ "/" ++ l.ServiceName ++ ".log") := by
  obtain ⟨name, -, -, hl, -⟩ := NewLogger_some os st cfg l h
  subst hl
  show Join [cfg.LogDir, name ++ ".log"] = Join [cfg.LogDir, name ++ ".log"] ∧
    (cfg.LogDir ≠ "" → Join [cfg.LogDir, name ++ ".log"] =
      Clean (cfg.LogDir ++ "/" ++ (name ++ ".log"))) ∧
    (cfg.LogDir = "" → Join [cfg.LogDir, name ++ ".log"] = Clean (name ++ ".log")) ∧
    (Clean cfg.LogDir = cfg.LogDir → cfg.LogDir ≠ "." → cfg.LogDir ≠ "/" →
      (∀ c ∈ name.data, IsPathSeparator c = false) →
      Join [cfg.LogDir, name ++ ".log"] = cfg.LogDir ++ "/" ++ name ++ ".log")
  have hf : name ++ ".log" ≠ "" := by
    intro h0
    have := congrArg String.length h0
    simp at this
    exact absurd this.2 (by decide)
  have hjoin := Join_pair cfg.LogDir (name ++ ".log") hf
  refine ⟨rfl, fun hd => by rw [hjoin, if_neg hd], fun hd => by rw [hjoin, if_pos hd], ?_⟩
  intro hclean hdot hroot hsvc
  have hd : cfg.LogDir ≠ "" := by
    intro h0
    rw [h0] at hclean
    exact absurd hclean (by decide)
  rw [hjoin, if_neg hd]
  have hlen : ∀ (x : List Char), x.length ≤ 2 → name.data ++ ".log".data ≠ x := by
    intro x hx h0
    have := congrArg List.length h0
    simp at this
    omega
  have key := cleanChars_append_element cfg.LogDir.data (name.data ++ ".log".data)
    (by simpa [Clean] using congrArg String.data hclean)
    (fun h0 => hdot (String.ext h0)) (fun h0 => hroot (String.ext h0))
    (by
      intro c hc
      rcases List.mem_append.1 hc with hc | hc
      · exact hsvc c hc
      · have hlog : ∀ x ∈ ".log".data, IsPathSeparator x = false := by decide
        exact hlog c hc)
    (hlen [] (by simp)) (hlen ['.'] (by simp)) (hlen ['.', '.'] (by simp))
  apply String.ext
  simp only [Clean, String.data_append]
  rw [show cfg.LogDir.data ++ "/".data ++ (name.data ++ ".log".data) =
    cfg.LogDir.data ++ Separator :: (name.data ++ ".log".data) from by
      simp [Separator], key]
  simp [Separator]

/-- Witness for claim C5: the instance built for `testlogs`, whose file name
is `testlogs/myservice.log`. -/
theorem Filename_is_Join_witness :
    (NewLogger serviceOS ⟨emptyFS, none⟩ (configFor "testlogs" "")).logger =
        some testlogsLogger ∧
      testlogsLogger.Filename =
        "testlogs/myservice.log" := by
  have h := Filename_is_Join serviceOS ⟨emptyFS, none⟩ (configFor "testlogs" "")
    testlogsLogger (by decide)
  refine ⟨by decide, ?_⟩
  rw [h.2.2.2 (by decide) (by decide) (by decide) (by decide)]
  decide

/-- Claim C6: when `NewLogger` is called with an empty service name and the
executable path resolves to `p`, the service name of the instance is the
base name of `p` with its extension removed: followed by the extension it
gives back the base name, it is what stands before the final dot, and a base
name without an extension is used unchanged. -/
theorem ServiceName_from_executable {σ : Type} (os : OS σ) (st : Package σ) (cfg : Config)
    (l : Logger2) (p : String) (hname : cfg.ServiceName = "")
    (hexe : os.Executable = .ok p) (h : (NewLogger os st cfg).logger = some l) :
    l.ServiceName = baseNameWithoutExtension p ∧
    l.ServiceName ++ Ext (Base p) = Base p ∧
    (Ext (Base p) = "" → l.ServiceName = Base p) := by
  obtain ⟨name, -, hres, hl, -⟩ := NewLogger_some os st cfg l h
  have hn : name = executableName p := by
    unfold resolveServiceName at hres
    rw [if_pos hname, hexe] at hres
    exact (Except.ok.inj hres).symm
  subst hl
  show name = _ ∧ name ++ _ = _ ∧ (_ → name = _)
  rw [hn]
  refine ⟨(executableName_eq_spec p).1, (executableName_eq_spec p).2, fun he => ?_⟩
  unfold executableName
  simp only [he, ne_eq, not_true_eq_false, if_false]

/-- Witness for claim C6: the executable `/usr/bin/myservice.exe` gives the
service name `myservice`. -/
theorem ServiceName_from_executable_witness :
    (configFor "testlogs" "").ServiceName = "" ∧
      serviceOS.Executable = .ok "/usr/bin/myservice.exe" ∧
      (NewLogger serviceOS ⟨emptyFS, none⟩ (configFor "testlogs" "")).logger =
        some testlogsLogger ∧
      testlogsLogger.ServiceName =
        baseNameWithoutExtension "/usr/bin/myservice.exe" ∧
      baseNameWithoutExtension "/usr/bin/myservice.exe" = "myservice" ∧
      baseNameWithoutExtension "/usr/bin/myservice" = "myservice" :=
  ⟨rfl, rfl, by decide,
    (ServiceName_from_executable serviceOS ⟨emptyFS, none⟩ (configFor "testlogs" "")
      testlogsLogger "/usr/bin/myservice.exe"
      rfl rfl (by decide)).1, by decide, by decide⟩

/-- Claim C7 as stated fails: called directly with the existing directory
`logs/`, `NewLogger` succeeds and the `LogDir` of the instance is `logs/`
itself, while the cleaned form is `logs`. -/
theorem NewLogger_keeps_LogDir_uncleaned :
    (NewLogger serviceOS ⟨trailingSlashFS, none⟩ (configFor "logs/" "svc")).err = none ∧
      (NewLogger serviceOS ⟨trailingSlashFS, none⟩ (configFor "logs/" "svc")).logger.map
        (fun l => l.LogDir) = some "logs/" ∧
      Clean (configFor "logs/" "svc").LogDir = "logs" ∧
      (NewLogger serviceOS ⟨trailingSlashFS, none⟩ (configFor "logs/" "svc")).logger.map
        (fun l => l.LogDir) ≠ some (Clean (configFor "logs/" "svc").LogDir) := by
  decide

/-- Claim C7, amended: `NewLogger` takes the directory path as it is given.
On every configuration on which it succeeds, the `LogDir` of the instance
and of the configuration afterwards is the one passed in, that same string
is the path that is checked with `Stat` and created with `MkdirAll`, and it
is the directory part handed to `Join` for the file path. -/
theorem NewLogger_uses_LogDir_as_given {σ : Type} (os : OS σ) (st : Package σ) (cfg : Config)
    (l : Logger2) (h : (NewLogger os st cfg).logger = some l) :
    l.LogDir = cfg.LogDir ∧
    (NewLogger os st cfg).cfg.LogDir = cfg.LogDir ∧
    (NewLogger os st cfg).state.fs =
      (if IsNotExist (errOf (os.Stat st.fs cfg.LogDir))
        then (os.MkdirAll st.fs cfg.LogDir 0o755).2 else st.fs) ∧
    l.Filename = Join [cfg.LogDir, l.ServiceName ++ ".log"] := by
  obtain ⟨name, -, -, hl, -, -, hcfg⟩ := NewLogger_some os st cfg l h
  subst hl
  refine ⟨rfl, by rw [hcfg]; rfl, ?_, rfl⟩
  rw [NewLogger_state_fs, ensureLogDir_snd]

/-- Witness for claim C7: the direct call with the existing directory
`logs/`. -/
theorem NewLogger_uses_LogDir_as_given_witness :
    (NewLogger serviceOS ⟨trailingSlashFS, none⟩ (configFor "logs/" "svc")).logger =
        some ((configFor "logs/" "svc").completed "svc").newInstance ∧
      ((configFor "logs/" "svc").completed "svc").newInstance.LogDir = "logs/" :=
  ⟨by decide, (NewLogger_uses_LogDir_as_given serviceOS ⟨trailingSlashFS, none⟩
    (configFor "logs/" "svc") ((configFor "logs/" "svc").completed "svc").newInstance
    (by decide)).1⟩

/-- Claim C8, evaluated on the code: whenever `Stat` on `LogDir` reports
something other than that the path does not exist, and the path is not a
directory (a regular file, or a failure such as not-a-directory or
permission denied), `NewLogger` creates nothing, leaves the filesystem as it
was, and returns an instance and no error although `LogDir` is not an
existing directory (given a service name or a resolvable executable path). -/
theorem NewLogger_accepts_non_directory {σ : Type} (os : OS σ) (st : Package σ) (cfg : Config)
    (hstat : IsNotExist (errOf (os.Stat st.fs cfg.LogDir)) = false)
    (hdir : os.isDirectory st.fs cfg.LogDir = false)
    (hname : cfg.ServiceName ≠ "" ∨ errOf os.Executable = none) :
    ∃ l, (NewLogger os st cfg).logger = some l ∧
      (NewLogger os st cfg).err = none ∧
      l.LogDir = cfg.LogDir ∧
      (NewLogger os st cfg).state.fs = st.fs ∧
      os.isDirectory (NewLogger os st cfg).state.fs cfg.LogDir = false := by
  have hfs : (NewLogger os st cfg).state.fs = st.fs := by
    rw [NewLogger_state_fs, ensureLogDir_snd, hstat]
    rfl
  have hmk : (ensureLogDir os st.fs cfg.LogDir).1 = none := by
    rw [ensureLogDir_fst, hstat]
    rfl
  rcases NewLogger_cases os st cfg with
    ⟨e, h1, _⟩ | ⟨e, _, h2, _⟩ | ⟨name, _, _, hl, herr, _⟩
  · rw [hmk] at h1; cases h1
  · have hbad := (resolveServiceName_error_iff os cfg).1 ⟨e, h2⟩
    rcases hname with hn | hx
    · exact absurd hbad.1 hn
    · exact absurd hx hbad.2
  · exact ⟨_, hl, herr, rfl, hfs, by rw [hfs]; exact hdir⟩

/-- Witness for claim C8: `logfile` is a regular file; `NewLogger` with that
path as `LogDir` returns an instance and no error, `logfile` is still not a
directory, and `Info` on the instance appends nothing because the log file
cannot be opened under a regular file.  Where the path does not exist and
cannot be created, `NewLogger` does return an error. -/
theorem NewLogger_accepts_non_directory_witness :
    IsNotExist (errOf (serviceRuntime.os.Stat regularFileFS "logfile")) = false ∧
      serviceRuntime.os.isDirectory regularFileFS "logfile" = false ∧
      (NewLogger serviceRuntime.os ⟨regularFileFS, none⟩ (configFor "logfile" "svc")).logger =
        some regularFileLogger ∧
      (NewLogger serviceRuntime.os ⟨regularFileFS, none⟩ (configFor "logfile" "svc")).err =
        none ∧
      serviceRuntime.os.isDirectory
        (NewLogger serviceRuntime.os ⟨regularFileFS, none⟩
          (configFor "logfile" "svc")).state.fs "logfile" = false ∧
      (regularFileLogger.Info serviceRuntime "hello" [] (Process.fresh regularFileFS)).sink =
        [] ∧
      (regularFileLogger.Info serviceRuntime "hello" [] (Process.fresh regularFileFS)).stderr =
        [WriteError.file Errno.ENOTDIR] ∧
      (NewLogger serviceRuntime.os ⟨readOnlyFS, none⟩ (configFor "testlogs" "svc")).err =
        some (LoggerError.createLogDir "testlogs" Errno.EACCES) := by
  obtain ⟨l, h1, h2, -, -, h5⟩ := NewLogger_accepts_non_directory serviceRuntime.os
    ⟨regularFileFS, none⟩ (configFor "logfile" "svc") (by decide) (by decide)
    (Or.inl (by decide))
  exact ⟨by decide, by decide, by decide, h2, h5, by decide, by decide, by decide⟩

/-! ## Failure of `NewLogger` -/

/-- Claim C9: `NewLogger` returns no instance and an error exactly when
`Stat` reports the directory as not existing and `MkdirAll` fails, or the
service name is empty and the executable path cannot be resolved; in every
other case it returns an instance and no error. -/
theorem NewLogger_fails_iff {σ : Type} (os : OS σ) (st : Package σ) (cfg : Config) :
    (((NewLogger os st cfg).logger = none ∧ (NewLogger os st cfg).err ≠ none) ↔
      ((IsNotExist (errOf (os.Stat st.fs cfg.LogDir)) = true ∧
          (os.MkdirAll st.fs cfg.LogDir 0o755).1 ≠ none) ∨
        (cfg.ServiceName = "" ∧ errOf os.Executable ≠ none))) ∧
    (((NewLogger os st cfg).logger ≠ none ∧ (NewLogger os st cfg).err = none) ↔
      ¬ ((IsNotExist (errOf (os.Stat st.fs cfg.LogDir)) = true ∧
          (os.MkdirAll st.fs cfg.LogDir 0o755).1 ≠ none) ∨
        (cfg.ServiceName = "" ∧ errOf os.Executable ≠ none))) := by
  have hfst := ensureLogDir_fst os st.fs cfg.LogDir
  have hres := resolveServiceName_error_iff os cfg
  rcases NewLogger_cases os st cfg with
    ⟨e, h1, hl, he, _⟩ | ⟨e, h1, h2, hl, he, _⟩ | ⟨name, h1, h2, hl, he, _⟩
  · have hc : IsNotExist (errOf (os.Stat st.fs cfg.LogDir)) = true ∧
        (os.MkdirAll st.fs cfg.LogDir 0o755).1 ≠ none := by
      rw [h1] at hfst
      by_cases hn : IsNotExist (errOf (os.Stat st.fs cfg.LogDir)) = true
      · rw [if_pos hn] at hfst
        exact ⟨hn, by rw [← hfst]; simp⟩
      · rw [if_neg hn] at hfst; cases hfst
    rw [hl, he]
    simp [hc]
  · have hc := hres.1 ⟨e, h2⟩
    rw [hl, he]
    simp [hc]
  · have hc1 : ¬ (IsNotExist (errOf (os.Stat st.fs cfg.LogDir)) = true ∧
        (os.MkdirAll st.fs cfg.LogDir 0o755).1 ≠ none) := by
      rintro ⟨hn, hm⟩
      rw [h1, if_pos hn] at hfst
      exact hm hfst.symm
    have hc2 : ¬ (cfg.ServiceName = "" ∧ errOf os.Executable ≠ none) := by
      intro hc
      obtain ⟨e, he2⟩ := hres.2 hc
      rw [h2] at he2; cases he2
    rw [hl, he]
    refine ⟨⟨fun h => absurd rfl h.2, fun h => ?_⟩, ⟨fun _ => ?_, fun _ => ⟨by simp, rfl⟩⟩⟩
    · rcases h with h | h
      · exact absurd h hc1
      · exact absurd h hc2
    · rintro (h | h)
      · exact hc1 h
      · exact hc2 h

/-- Witness for claim C9: creating `testlogs` fails in a filesystem that is
not writable and `NewLogger` returns no instance and an error; in a writable
one it returns an instance and no error. -/
theorem NewLogger_fails_iff_witness :
    ((NewLogger serviceOS ⟨readOnlyFS, none⟩ (configFor "testlogs" "svc")).logger = none ∧
        (NewLogger serviceOS ⟨readOnlyFS, none⟩ (configFor "testlogs" "svc")).err ≠ none) ∧
      ((NewLogger noExecutableOS ⟨testlogsFS, none⟩ (configFor "testlogs" "")).logger = none ∧
        (NewLogger noExecutableOS ⟨testlogsFS, none⟩ (configFor "testlogs" "")).err ≠ none) ∧
      ((NewLogger serviceOS ⟨emptyFS, none⟩ (configFor "testlogs" "")).logger ≠ none ∧
        (NewLogger serviceOS ⟨emptyFS, none⟩ (configFor "testlogs" "")).err = none) :=
  ⟨(NewLogger_fails_iff serviceOS ⟨readOnlyFS, none⟩ (configFor "testlogs" "svc")).1.2
      (Or.inl ⟨by decide, by decide⟩),
    (NewLogger_fails_iff noExecutableOS ⟨testlogsFS, none⟩ (configFor "testlogs" "")).1.2
      (Or.inr ⟨by decide, by decide⟩),
    (NewLogger_fails_iff serviceOS ⟨emptyFS, none⟩ (configFor "testlogs" "")).2.2
      (by decide)⟩

/-- Claim C10: if `NewLogger` returns an error, `Logger` afterwards returns
what it returned before, no instance is returned and the configuration is
unchanged in every field; if it returns no error, the returned instance is
the new value of `Logger` and the configuration differs from the one passed
in exactly by the service name and file name of that instance. -/
theorem NewLogger_atomic_on_failure {σ : Type} (os : OS σ) (st : Package σ) (cfg : Config) :
    ((NewLogger os st cfg).err ≠ none →
      Logger (NewLogger os st cfg).state = Logger st ∧
      (NewLogger os st cfg).cfg = cfg ∧
      (NewLogger os st cfg).logger = none) ∧
    ((NewLogger os st cfg).err = none →
      ∃ l, (NewLogger os st cfg).logger = some l ∧
        Logger (NewLogger os st cfg).state = some l ∧
        (NewLogger os st cfg).cfg = cfg.completed l.ServiceName ∧
        (NewLogger os st cfg).cfg.Filename = l.Filename) := by
  rcases NewLogger_cases os st cfg with
    ⟨e, h1, hl, he, hg, hc⟩ | ⟨e, h1, h2, hl, he, hg, hc⟩ | ⟨name, h1, h2, hl, he, hg, hc⟩
  · exact ⟨fun _ => ⟨hg, hc, hl⟩, fun h => by rw [he] at h; cases h⟩
  · exact ⟨fun _ => ⟨hg, hc, hl⟩, fun h => by rw [he] at h; cases h⟩
  · exact ⟨fun h => absurd he h, fun _ => ⟨_, hl, hg, hc, by rw [hc]; rfl⟩⟩

/-- Witness for claim C10: with an instance installed before, a call that
fails on the executable path leaves `Logger` and the configuration as they
were; a call that succeeds installs the new instance and writes its names
into the configuration. -/
theorem NewLogger_atomic_on_failure_witness :
    (Logger (NewLogger noExecutableOS ⟨testlogsFS, some testlogsLogger⟩
        (configFor "testlogs" "")).state = some testlogsLogger ∧
      (NewLogger noExecutableOS ⟨testlogsFS, some testlogsLogger⟩
        (configFor "testlogs" "")).cfg = configFor "testlogs" "") ∧
      ∃ l, Logger (NewLogger serviceOS ⟨emptyFS, none⟩ (configFor "testlogs" "")).state =
          some l ∧
        (NewLogger serviceOS ⟨emptyFS, none⟩ (configFor "testlogs" "")).cfg.Filename =
          l.Filename := by
  have h1 := (NewLogger_atomic_on_failure noExecutableOS ⟨testlogsFS, some testlogsLogger⟩
    (configFor "testlogs" "")).1 (by decide)
  obtain ⟨l, -, h2, -, h3⟩ := (NewLogger_atomic_on_failure serviceOS ⟨emptyFS, none⟩
    (configFor "testlogs" "")).2 (by decide)
  exact ⟨⟨h1.1, h1.2.1⟩, l, h2, h3⟩

end logger2
